import Mathlib

/-!
Shallow embedding of the status-interpretation core of the Homey_Wenzhi
repository (device matcher, zone-status decoder, transition classifier,
bounded retry executor), together with theorems settling the spec's claims.

JavaScript numbers that the claims exercise are non-negative integers, so
they are modelled as `Nat`; JavaScript's fallible `Buffer.readUInt16LE`
(which throws a RangeError on buffers shorter than 2 bytes) is modelled
with `Option`, `none` standing for the thrown error.
-/

namespace HomeyWenzhi

/-! ## Zone status decoder (src/lib/zone-status-parser.js) -/

/-- The eight named flags produced by `parseZoneStatus`
(src/lib/zone-status-parser.js, `ParsedZoneStatus`). -/
structure ParsedZoneStatus where
  alarm1 : Bool
  alarm2 : Bool
  tamper : Bool
  battery : Bool
  supervisionReports : Bool
  restoreReports : Bool
  trouble : Bool
  acMains : Bool
deriving DecidableEq, Repr

/-- A JavaScript object reaching `toZoneStatusNumber`'s object branches,
abstracted to the fields those branches inspect:
`typeIsBuffer` is whether `.type === 'Buffer'`; `data` is `some bytes` when
`.data` is an array (`Array.isArray`); `alarm1` is `some b` when the field is
defined, `b` its truthiness; the other seven flag fields carry their
truthiness (an undefined field is falsy); `valueOfNum` is `some n` when
`.valueOf()` returns a number; `raw` is `some n` when `.raw` is defined and a
number. -/
structure ZsObject where
  typeIsBuffer : Bool := false
  data : Option (List Nat) := none
  alarm1 : Option Bool := none
  alarm2 : Bool := false
  tamper : Bool := false
  battery : Bool := false
  supervisionReports : Bool := false
  restoreReports : Bool := false
  trouble : Bool := false
  acMains : Bool := false
  valueOfNum : Option Nat := none
  raw : Option Nat := none
deriving DecidableEq, Repr

/-- The input shapes `toZoneStatusNumber` dispatches on: a native number, a
native `Buffer` (its byte list), a plain object, or any other value
(null, undefined, string, boolean, ...), which fails every typeof/object
test and reaches the final `return 0`. -/
inductive ZoneStatusInput where
  | num (n : Nat)
  | buffer (bytes : List Nat)
  | obj (o : ZsObject)
  | otherPrim
deriving DecidableEq, Repr

/-- Node's `Buffer.from(bytes).readUInt16LE(0)`: little-endian 16-bit read;
bytes are stored modulo 256; a buffer with fewer than 2 bytes makes the read
throw a RangeError, modelled as `none`. -/
def readUInt16LE : List Nat → Option Nat
  | b0 :: b1 :: _ => some (b0 % 256 + 256 * (b1 % 256))
  | _ => none

/-- The OR-reconstruction of `toZoneStatusNumber`'s Bitmap branch:
`status |= mask` for each truthy flag. -/
def orReconstruct (alarm1 alarm2 tamper battery supervisionReports
    restoreReports trouble acMains : Bool) : Nat :=
  (if alarm1 then 0x0001 else 0) |||
  (if alarm2 then 0x0002 else 0) |||
  (if tamper then 0x0004 else 0) |||
  (if battery then 0x0008 else 0) |||
  (if supervisionReports then 0x0010 else 0) |||
  (if restoreReports then 0x0020 else 0) |||
  (if trouble then 0x0040 else 0) |||
  (if acMains then 0x0080 else 0)

/-- `toZoneStatusNumber` (src/lib/zone-status-parser.js lines 83-127):
number as-is; Buffer read little-endian; serialized-buffer object
(`type === 'Buffer'` and `data` an array) read via `Buffer.from`; object with
`alarm1` defined OR-reconstructed; numeric `valueOf()`; numeric `raw` field;
otherwise 0. -/
def toZoneStatusNumber : ZoneStatusInput → Option Nat
  | .num n => some n
  | .buffer bytes => readUInt16LE bytes
  | .obj o =>
      if o.typeIsBuffer ∧ o.data.isSome then
        readUInt16LE (o.data.getD [])
      else if o.alarm1.isSome then
        some (orReconstruct (o.alarm1.getD false) o.alarm2 o.tamper o.battery
          o.supervisionReports o.restoreReports o.trouble o.acMains)
      else
        match o.valueOfNum with
        | some v => some v
        | none =>
            match o.raw with
            | some r => some r
            | none => some 0
  | .otherPrim => some 0

/-- The eight bit tests of `parseZoneStatus` applied to the normalized
number. -/
def parseZoneStatusNum (status : Nat) : ParsedZoneStatus where
  alarm1 := status &&& 0x0001 ≠ 0
  alarm2 := status &&& 0x0002 ≠ 0
  tamper := status &&& 0x0004 ≠ 0
  battery := status &&& 0x0008 ≠ 0
  supervisionReports := status &&& 0x0010 ≠ 0
  restoreReports := status &&& 0x0020 ≠ 0
  trouble := status &&& 0x0040 ≠ 0
  acMains := status &&& 0x0080 ≠ 0

/-- `parseZoneStatus` (src/lib/zone-status-parser.js lines 135-147):
normalize with `toZoneStatusNumber`, then extract the eight flags. -/
def parseZoneStatus (zoneStatus : ZoneStatusInput) : Option ParsedZoneStatus :=
  (toZoneStatusNumber zoneStatus).map parseZoneStatusNum

/-- `isPresenceDetected` (src/lib/zone-status-parser.js lines 156-164):
an object with `alarm1` defined short-circuits to `Boolean(alarm1)`;
otherwise normalize and test bit 0. -/
def isPresenceDetected (zoneStatus : ZoneStatusInput) : Option Bool :=
  match zoneStatus with
  | .obj o =>
      if o.alarm1.isSome then some (o.alarm1.getD false)
      else (toZoneStatusNumber zoneStatus).map (fun s => decide (s &&& 0x0001 ≠ 0))
  | x => (toZoneStatusNumber x).map (fun s => decide (s &&& 0x0001 ≠ 0))

/-- Masking with a single bit below bit 8 only sees the low 8 bits. -/
lemma land_two_pow_mod256 (s i : Nat) (hi : i < 8) :
    (s % 256) &&& 2 ^ i = s &&& 2 ^ i := by
  rw [Nat.and_two_pow, Nat.and_two_pow]
  have h256 : (256 : Nat) = 2 ^ 8 := by norm_num
  rw [h256, Nat.testBit_mod_two_pow]
  simp [hi]

/-- The eight bit tests only depend on the low 8 bits of the status word. -/
lemma parseZoneStatusNum_mod256 (s : Nat) :
    parseZoneStatusNum (s % 256) = parseZoneStatusNum s := by
  have h1 : (s % 256) &&& 1 = s &&& 1 := by
    simpa using land_two_pow_mod256 s 0 (by norm_num)
  have h2 : (s % 256) &&& 2 = s &&& 2 := by
    simpa using land_two_pow_mod256 s 1 (by norm_num)
  have h3 : (s % 256) &&& 4 = s &&& 4 := by
    simpa using land_two_pow_mod256 s 2 (by norm_num)
  have h4 : (s % 256) &&& 8 = s &&& 8 := by
    simpa using land_two_pow_mod256 s 3 (by norm_num)
  have h5 : (s % 256) &&& 16 = s &&& 16 := by
    simpa using land_two_pow_mod256 s 4 (by norm_num)
  have h6 : (s % 256) &&& 32 = s &&& 32 := by
    simpa using land_two_pow_mod256 s 5 (by norm_num)
  have h7 : (s % 256) &&& 64 = s &&& 64 := by
    simpa using land_two_pow_mod256 s 6 (by norm_num)
  have h8 : (s % 256) &&& 128 = s &&& 128 := by
    simpa using land_two_pow_mod256 s 7 (by norm_num)
  simp only [parseZoneStatusNum, h1, h2, h3, h4, h5, h6, h7, h8]

/-- C1: for every 16-bit integer `s`, `parseZoneStatus s` returns the eight
flags given by the bit tests with masks `0x0001`..`0x0080`, and the flags
depend only on the low 8 bits of `s` (bits 8-15 are ignored). -/
theorem parseZoneStatus_bit_tests (s : Nat) (_hs : s ≤ 0xFFFF) :
    parseZoneStatus (.num s) = some
      { alarm1 := s &&& 0x0001 ≠ 0
        alarm2 := s &&& 0x0002 ≠ 0
        tamper := s &&& 0x0004 ≠ 0
        battery := s &&& 0x0008 ≠ 0
        supervisionReports := s &&& 0x0010 ≠ 0
        restoreReports := s &&& 0x0020 ≠ 0
        trouble := s &&& 0x0040 ≠ 0
        acMains := s &&& 0x0080 ≠ 0 } ∧
    parseZoneStatus (.num s) = parseZoneStatus (.num (s % 256)) := by
  refine ⟨rfl, ?_⟩
  show some (parseZoneStatusNum s) = some (parseZoneStatusNum (s % 256))
  rw [parseZoneStatusNum_mod256]

theorem parseZoneStatus_bit_tests_witness :
    parseZoneStatus (.num 0xABCD) = some
      { alarm1 := 0xABCD &&& 0x0001 ≠ 0
        alarm2 := 0xABCD &&& 0x0002 ≠ 0
        tamper := 0xABCD &&& 0x0004 ≠ 0
        battery := 0xABCD &&& 0x0008 ≠ 0
        supervisionReports := 0xABCD &&& 0x0010 ≠ 0
        restoreReports := 0xABCD &&& 0x0020 ≠ 0
        trouble := 0xABCD &&& 0x0040 ≠ 0
        acMains := 0xABCD &&& 0x0080 ≠ 0 } ∧
    parseZoneStatus (.num 0xABCD) = parseZoneStatus (.num (0xABCD % 256)) :=
  parseZoneStatus_bit_tests 0xABCD (by norm_num)

/-- Inputs on which `toZoneStatusNumber` reaches a `readUInt16LE` call with
fewer than 2 bytes: a native Buffer of length < 2, or a serialized-buffer
object whose `data` array has length < 2. -/
def shortByteShape : ZoneStatusInput → Bool
  | .buffer bytes => decide (bytes.length < 2)
  | .obj o => o.typeIsBuffer && o.data.isSome && decide ((o.data.getD []).length < 2)
  | _ => false

/-- Inputs that match none of `toZoneStatusNumber`'s recognized shapes and
reach the final `return 0`. -/
def unrecognizedShape : ZoneStatusInput → Bool
  | .otherPrim => true
  | .obj o =>
      !(o.typeIsBuffer && o.data.isSome) && !o.alarm1.isSome &&
        !o.valueOfNum.isSome && !o.raw.isSome
  | _ => false

lemma readUInt16LE_isSome (bytes : List Nat) (h : 2 ≤ bytes.length) :
    (readUInt16LE bytes).isSome = true := by
  cases bytes with
  | nil => simp at h
  | cons b0 t =>
      cases t with
      | nil => simp at h
      | cons b1 r => rfl

lemma toZoneStatusNumber_isSome (x : ZoneStatusInput) (h : shortByteShape x = false) :
    (toZoneStatusNumber x).isSome = true := by
  cases x with
  | num n => rfl
  | otherPrim => rfl
  | buffer bytes =>
      simp only [shortByteShape, decide_eq_false_iff_not, not_lt] at h
      exact readUInt16LE_isSome bytes h
  | obj o =>
      simp only [toZoneStatusNumber]
      split
      · next hb =>
          apply readUInt16LE_isSome
          simp only [shortByteShape, hb.1, hb.2, Bool.true_and,
            decide_eq_false_iff_not, not_lt] at h
          exact h
      · split
        · rfl
        · split
          · rfl
          · split <;> rfl

lemma isSome_false_eq_none {α : Type} {o : Option α} (h : o.isSome = false) :
    o = none := by
  cases o with
  | none => rfl
  | some v => simp at h

lemma toZoneStatusNumber_unrecognized (x : ZoneStatusInput)
    (hu : unrecognizedShape x = true) : toZoneStatusNumber x = some 0 := by
  cases x with
  | num n => simp [unrecognizedShape] at hu
  | buffer bytes => simp [unrecognizedShape] at hu
  | otherPrim => rfl
  | obj o =>
      simp only [unrecognizedShape, Bool.and_eq_true, Bool.not_eq_true',
        Bool.and_eq_false_iff] at hu
      obtain ⟨⟨⟨hb, ha⟩, hv⟩, hr⟩ := hu
      have hv' : o.valueOfNum = none := isSome_false_eq_none hv
      have hr' : o.raw = none := isSome_false_eq_none hr
      have hc1 : ¬(o.typeIsBuffer = true ∧ o.data.isSome = true) := by
        rcases hb with hb | hb <;> simp [hb]
      have hc2 : ¬(o.alarm1.isSome = true) := by simp [ha]
      simp only [toZoneStatusNumber]
      rw [if_neg hc1, if_neg hc2, hv', hr']

/-- C6 (amended): the decoder never raises except when a byte-sequence shape
carries fewer than 2 bytes; every unrecognized shape is treated as the
integer 0, yielding all eight flags false and no presence. -/
theorem parseZoneStatus_fail_safe (x : ZoneStatusInput) (h : shortByteShape x = false) :
    (parseZoneStatus x).isSome = true ∧ (isPresenceDetected x).isSome = true ∧
    (unrecognizedShape x = true →
      parseZoneStatus x = some ⟨false, false, false, false, false, false, false, false⟩ ∧
      isPresenceDetected x = some false) := by
  have htz := toZoneStatusNumber_isSome x h
  obtain ⟨n, hn⟩ := Option.isSome_iff_exists.mp htz
  refine ⟨by simp [parseZoneStatus, hn], ?_, ?_⟩
  · cases x with
    | obj o =>
        by_cases ha : o.alarm1.isSome = true
        · simp [isPresenceDetected, ha]
        · simp [isPresenceDetected, ha, hn]
    | num m => simp [isPresenceDetected, hn]
    | buffer bytes => simp [isPresenceDetected, hn]
    | otherPrim => simp [isPresenceDetected, hn]
  · intro hu
    have h0 := toZoneStatusNumber_unrecognized x hu
    constructor
    · simp only [parseZoneStatus, h0, Option.map]
      rfl
    · cases x with
      | obj o =>
          have ha : o.alarm1.isSome = false := by
            simp only [unrecognizedShape, Bool.and_eq_true, Bool.not_eq_true'] at hu
            exact hu.1.1.2
          simp only [isPresenceDetected, ha, Bool.false_eq_true, if_false, h0, Option.map]
          rfl
      | num m => simp only [isPresenceDetected, h0, Option.map]; rfl
      | buffer bytes => simp only [isPresenceDetected, h0, Option.map]; rfl
      | otherPrim => rfl

theorem parseZoneStatus_fail_safe_witness :
    shortByteShape ZoneStatusInput.otherPrim = false ∧
    ((parseZoneStatus .otherPrim).isSome = true ∧
      (isPresenceDetected .otherPrim).isSome = true ∧
      (unrecognizedShape .otherPrim = true →
        parseZoneStatus .otherPrim =
          some ⟨false, false, false, false, false, false, false, false⟩ ∧
        isPresenceDetected .otherPrim = some false)) :=
  ⟨rfl, parseZoneStatus_fail_safe .otherPrim rfl⟩

/-- C6 (counterexample to the claim as stated): a 1-byte buffer makes
`readUInt16LE` throw a RangeError, so `parseZoneStatus` and
`isPresenceDetected` do not return normally on it. -/
theorem parseZoneStatus_short_buffer_throws :
    parseZoneStatus (.buffer [5]) = none ∧ isPresenceDetected (.buffer [5]) = none :=
  ⟨rfl, rfl⟩

/-- Decoding the OR-reconstructed status word recovers exactly the flags that
were OR-ed in. -/
lemma parseZoneStatusNum_orReconstruct :
    ∀ a b c d e f g h : Bool,
      parseZoneStatusNum (orReconstruct a b c d e f g h) = ⟨a, b, c, d, e, f, g, h⟩ := by
  decide

/-- C5 (amended): `isPresenceDetected` agrees with `parseZoneStatus .alarm1`
on every accepted shape except an object that simultaneously matches the
serialized-buffer shape and carries an `alarm1` field; the short-circuit for
flag objects never performs the decode round trip. -/
theorem isPresenceDetected_eq_parse_alarm1 (x : ZoneStatusInput)
    (h : ∀ o : ZsObject, x = .obj o →
      ¬(o.typeIsBuffer = true ∧ o.data.isSome = true ∧ o.alarm1.isSome = true)) :
    isPresenceDetected x = (parseZoneStatus x).map ParsedZoneStatus.alarm1 := by
  cases x with
  | num n => rfl
  | otherPrim => rfl
  | buffer bytes =>
      cases htz : readUInt16LE bytes <;>
        simp [isPresenceDetected, parseZoneStatus, toZoneStatusNumber,
          parseZoneStatusNum, htz]
  | obj o =>
      by_cases ha : o.alarm1.isSome = true
      · have hns : ¬(o.typeIsBuffer = true ∧ o.data.isSome = true) :=
          fun hb => h o rfl ⟨hb.1, hb.2, ha⟩
        obtain ⟨b, hb⟩ := Option.isSome_iff_exists.mp ha
        simp [isPresenceDetected, parseZoneStatus, toZoneStatusNumber, if_neg hns,
          ha, hb, parseZoneStatusNum_orReconstruct]
      · cases htz : toZoneStatusNumber (.obj o) <;>
          simp [isPresenceDetected, parseZoneStatus, parseZoneStatusNum, ha, htz]

theorem isPresenceDetected_eq_parse_alarm1_witness :
    isPresenceDetected (.num 0x0081) =
      (parseZoneStatus (.num 0x0081)).map ParsedZoneStatus.alarm1 :=
  isPresenceDetected_eq_parse_alarm1 (.num 0x0081) (by intro o ho; cases ho)

/-- C5 (counterexample to the claim as stated): an object matching the
serialized-buffer shape that also carries `alarm1` is short-circuited by
`isPresenceDetected` (reading the flag) but decoded from its byte data by
`parseZoneStatus`, so the two disagree. -/
theorem isPresenceDetected_ne_parse_alarm1 :
    isPresenceDetected
        (.obj { typeIsBuffer := true, data := some [0, 0], alarm1 := some true }) =
      some true ∧
    (parseZoneStatus
        (.obj { typeIsBuffer := true, data := some [0, 0], alarm1 := some true })).map
        ParsedZoneStatus.alarm1 = some false := by
  constructor <;> rfl

/-- The flags object returned by `parseZoneStatus`, fed back as an input:
a plain object whose only decoder-relevant fields are the eight flags
(all defined booleans), so `alarm1 !== undefined` holds. -/
def reinjectFlags (f : ParsedZoneStatus) : ZoneStatusInput :=
  .obj { alarm1 := some f.alarm1, alarm2 := f.alarm2, tamper := f.tamper,
         battery := f.battery, supervisionReports := f.supervisionReports,
         restoreReports := f.restoreReports, trouble := f.trouble,
         acMains := f.acMains }

/-- C8: `parseZoneStatus` is idempotent - feeding a decoded flags object back
into the decoder reconstructs exactly the same eight flags via the
OR-reconstruction branch. -/
theorem parseZoneStatus_idempotent (x : ZoneStatusInput) (f : ParsedZoneStatus)
    (h : parseZoneStatus x = some f) :
    parseZoneStatus (reinjectFlags f) = some f := by
  cases f with
  | mk a b c d e f' g h' =>
      show some (parseZoneStatusNum (orReconstruct a b c d e f' g h')) = _
      rw [parseZoneStatusNum_orReconstruct]

theorem parseZoneStatus_idempotent_witness :
    parseZoneStatus (.num 5) =
      some ⟨true, false, true, false, false, false, false, false⟩ ∧
    parseZoneStatus
        (reinjectFlags ⟨true, false, true, false, false, false, false, false⟩) =
      some ⟨true, false, true, false, false, false, false, false⟩ :=
  ⟨by decide, parseZoneStatus_idempotent (.num 5) _ (by decide)⟩

/-! ## Device matcher (src/lib/device-matcher.js) -/

/-- The inputs `isMatchingDevice` distinguishes: a null/undefined (falsy)
value, a value whose `typeof` is not `'object'` (string, number, boolean,
function, ...), or an object whose `modelId`/`manufacturerName` fields are
`some s` when defined with string value `s` (a missing or non-string field
never strictly equals a string constant, so it is `none`). -/
inductive DeviceInput where
  | nullish
  | primNonObject
  | obj (modelId manufacturerName : Option String)
deriving DecidableEq, Repr

def EXPECTED_MODEL_ID : String := "TS0225"

def EXPECTED_MANUFACTURER_NAME : String := "_TZ321C_fkzihax8"

/-- `isMatchingDevice` (src/lib/device-matcher.js): false for any non-object,
otherwise strict equality of both identifier fields with the constants. -/
def isMatchingDevice : DeviceInput → Bool
  | .obj modelId manufacturerName =>
      decide (modelId = some EXPECTED_MODEL_ID) &&
        decide (manufacturerName = some EXPECTED_MANUFACTURER_NAME)
  | _ => false

/-- C3: `isMatchingDevice` returns true iff the input is an object whose
`modelId` strictly equals `"TS0225"` and whose `manufacturerName` strictly
equals `"_TZ321C_fkzihax8"`; every non-object input yields false (and, being
a total function, it never raises). -/
theorem isMatchingDevice_iff :
    (∀ d : DeviceInput, isMatchingDevice d = true ↔
      d = .obj (some EXPECTED_MODEL_ID) (some EXPECTED_MANUFACTURER_NAME)) ∧
    isMatchingDevice .nullish = false ∧ isMatchingDevice .primNonObject = false := by
  refine ⟨fun d => ?_, rfl, rfl⟩
  cases d with
  | nullish => simp [isMatchingDevice]
  | primNonObject => simp [isMatchingDevice]
  | obj modelId manufacturerName => simp [isMatchingDevice]

/-! ## Transition classifier (`determineFlowTrigger`, second module of
src/lib/retry.js lines 115-132) -/

/-- JavaScript values the classifier can receive, compared with strict
equality `===` (modelled as decidable equality; `NaN`, for which `===` is
irreflexive, is not modelled). -/
inductive JsVal where
  | bool (b : Bool)
  | nullV
  | undef
  | num (n : Int)
  | str (s : String)
deriving DecidableEq, Repr

/-- `determineFlowTrigger`: null on no change, `'motion_detected'` on a
change to `true`, `'motion_cleared'` on a change to `false`, null otherwise. -/
def determineFlowTrigger (previousState newState : JsVal) : Option String :=
  if previousState = newState then none
  else if newState = JsVal.bool true then some "motion_detected"
  else if newState = JsVal.bool false then some "motion_cleared"
  else none

/-- Embedding of the documented domain: previous state is a boolean or null
(unknown). -/
def toJsState : Option Bool → JsVal
  | none => .nullV
  | some b => .bool b

/-- C4: over the documented domain (previous ∈ {true, false, null}, next a
boolean), the classifier returns `motion_detected` iff next is true and
differs from previous, `motion_cleared` iff next is false and differs from
previous, and null iff they are equal; null previous never equals a boolean,
so a first observation is always an edge. -/
theorem determineFlowTrigger_cases :
    ∀ (p : Option Bool) (n : Bool),
      (determineFlowTrigger (toJsState p) (.bool n) = some "motion_detected" ↔
        n = true ∧ p ≠ some n) ∧
      (determineFlowTrigger (toJsState p) (.bool n) = some "motion_cleared" ↔
        n = false ∧ p ≠ some n) ∧
      (determineFlowTrigger (toJsState p) (.bool n) = none ↔ p = some n) := by
  intro p n
  cases p with
  | none => cases n <;> simp [determineFlowTrigger, toJsState]
  | some b => cases b <;> cases n <;> simp [determineFlowTrigger, toJsState]

/-- C10: the classifier is total over arbitrary inputs - it always returns
one of `'motion_detected'`, `'motion_cleared'` or null, and when the new
state is neither true nor false and differs from the previous state it falls
through to null. -/
theorem determineFlowTrigger_total (p n : JsVal) :
    (determineFlowTrigger p n = none ∨
      determineFlowTrigger p n = some "motion_detected" ∨
      determineFlowTrigger p n = some "motion_cleared") ∧
    ((∀ b : Bool, n ≠ .bool b) → p ≠ n → determineFlowTrigger p n = none) := by
  constructor
  · unfold determineFlowTrigger
    split
    · exact Or.inl rfl
    · split
      · exact Or.inr (Or.inl rfl)
      · split
        · exact Or.inr (Or.inr rfl)
        · exact Or.inl rfl
  · intro hb hne
    unfold determineFlowTrigger
    rw [if_neg hne, if_neg (hb true), if_neg (hb false)]

theorem determineFlowTrigger_total_witness :
    determineFlowTrigger (.str "x") .nullV = none :=
  (determineFlowTrigger_total (.str "x") .nullV).2
    (by intro b; cases b <;> simp) (by simp)

/-! ## Bounded retry executor (src/lib/retry.js)

`withRetrySync` takes an operation returning `{ success, value?, error? }`;
`withRetry` takes an async operation that either resolves (`Except.ok`) or
throws (`Except.error`). JavaScript numeric arguments (`maxRetries`,
`delay`) are modelled as integers; the loop `for (attempt = 1; attempt <=
maxRetries; ...)` runs `maxRetries.toNat` times, which both loops realize
with a fuel argument (`fuel = maxRetries - attempt + 1`, so the JS guard
`attempt < maxRetries` of the non-final-attempt branch is `fuel ≠ 0` after
the current attempt is consumed). The async variant additionally returns the
list of observable events of a run: each invocation of the operation, each
invocation of the `onRetry` observer callback (the omitted-callback default
`() => {}` makes the call a no-op but the call still happens), and each
`setTimeout` suspension with its duration. -/

structure OpResult (V E : Type) where
  success : Bool
  value : Option V := none
  error : Option E := none
deriving DecidableEq, Repr

/-- The `RetryResult` record of src/lib/retry.js: `result`/`error` are
`none` when the corresponding field is absent/undefined. -/
structure RetryResult (V E : Type) where
  success : Bool
  attempts : Nat
  result : Option V := none
  error : Option E := none
deriving DecidableEq, Repr

/-- The loop of `withRetrySync` (src/lib/retry.js lines 71-95).
`defaultError` embeds the `new Error('Operation failed')` substituted when a
failed result carries no truthy `error`. -/
def withRetrySyncGo {V E : Type} (operation : Nat → OpResult V E) (defaultError : E) :
    Nat → Nat → Option E → Nat → RetryResult V E
  | 0, _, lastError, attempts => { success := false, attempts := attempts, error := lastError }
  | fuel + 1, attempt, _, _ =>
      let result := operation attempt
      if result.success then
        { success := true, attempts := attempt, result := result.value }
      else
        withRetrySyncGo operation defaultError fuel (attempt + 1)
          (some (result.error.getD defaultError)) attempt

/-- `withRetrySync(operation, maxRetries)`; the JS default `maxRetries = 3`
is supplied by callers. -/
def withRetrySync {V E : Type} (operation : Nat → OpResult V E) (defaultError : E)
    (maxRetries : Int) : RetryResult V E :=
  withRetrySyncGo operation defaultError maxRetries.toNat 1 none 0

/-- Observable events of a `withRetry` run. -/
inductive RetryEvent (E : Type) where
  | opCall (attempt : Nat)
  | onRetryCall (attempt : Nat) (e : E)
  | sleep (ms : Int)
deriving DecidableEq, Repr

/-- The options object of `withRetry`; `none` models an omitted field, which
`??` replaces by the defaults 3 and 1000. -/
structure RetryOptions where
  maxRetries : Option Int := none
  delay : Option Int := none
deriving DecidableEq, Repr

/-- The loop of `withRetry` (src/lib/retry.js lines 28-62), with its event
trace: the attempt runs; on success the loop returns; on failure, if this was
not the final attempt (`attempt < maxRetries`, i.e. remaining fuel is
nonzero), `onRetry(attempt, error)` is called and, when `delay > 0`, the run
suspends for `delay` ms before the next attempt. -/
def withRetryGo {V E : Type} (operation : Nat → Except E V) (delay : Int) :
    Nat → Nat → Option E → Nat → RetryResult V E × List (RetryEvent E)
  | 0, _, lastError, attempts =>
      ({ success := false, attempts := attempts, error := lastError }, [])
  | fuel + 1, attempt, _, _ =>
      match operation attempt with
      | .ok v => ({ success := true, attempts := attempt, result := some v }, [.opCall attempt])
      | .error e =>
          let between :=
            if fuel = 0 then []
            else .onRetryCall attempt e :: (if delay > 0 then [.sleep delay] else [])
          let rest := withRetryGo operation delay fuel (attempt + 1) (some e) attempt
          (rest.1, .opCall attempt :: (between ++ rest.2))

/-- `withRetry(operation, options)` with the `??` defaults of lines 29-31. -/
def withRetry {V E : Type} (operation : Nat → Except E V) (options : RetryOptions) :
    RetryResult V E × List (RetryEvent E) :=
  withRetryGo operation (options.delay.getD 1000) (options.maxRetries.getD 3).toNat 1 none 0

/-- An operation that fails its first `k` invocations (failure `i` carrying
`err i`) and succeeds from invocation `k + 1` on, producing `v`. -/
def failThenSucceedSync {V E : Type} (k : Nat) (err : Nat → E) (v : V) :
    Nat → OpResult V E :=
  fun i =>
    if i ≤ k then { success := false, error := some (err i) }
    else { success := true, value := some v }

/-- Async counterpart of `failThenSucceedSync`: throws `err i` on the first
`k` invocations, then resolves with `v`. -/
def failThenSucceedAsync {V E : Type} (k : Nat) (err : Nat → E) (v : V) :
    Nat → Except E V :=
  fun i => if i ≤ k then .error (err i) else .ok v

/-- One failing iteration of the sync loop. -/
lemma withRetrySyncGo_step {V E : Type} (op : Nat → OpResult V E) (d : E)
    (fuel a : Nat) (le : Option E) (att : Nat) (hfail : (op a).success = false) :
    withRetrySyncGo op d (fuel + 1) a le att =
      withRetrySyncGo op d fuel (a + 1) (some ((op a).error.getD d)) a := by
  simp only [withRetrySyncGo, hfail, Bool.false_eq_true, if_false]

/-- A succeeding iteration of the sync loop returns at once. -/
lemma withRetrySyncGo_hit {V E : Type} (op : Nat → OpResult V E) (d : E)
    (fuel a : Nat) (le : Option E) (att : Nat) (hsucc : (op a).success = true) :
    withRetrySyncGo op d (fuel + 1) a le att =
      { success := true, attempts := a, result := (op a).value } := by
  simp only [withRetrySyncGo, hsucc, if_true]

/-- One failing iteration of the async loop. -/
lemma withRetryGo_step {V E : Type} (op : Nat → Except E V) (dl : Int)
    (fuel a : Nat) (le : Option E) (att : Nat) (e : E) (hfail : op a = .error e) :
    withRetryGo op dl (fuel + 1) a le att =
      ((withRetryGo op dl fuel (a + 1) (some e) a).1,
        RetryEvent.opCall a ::
          ((if fuel = 0 then []
            else RetryEvent.onRetryCall a e :: (if dl > 0 then [RetryEvent.sleep dl] else [])) ++
            (withRetryGo op dl fuel (a + 1) (some e) a).2)) := by
  conv_lhs => rw [withRetryGo]
  rw [hfail]

/-- A succeeding iteration of the async loop returns at once. -/
lemma withRetryGo_hit {V E : Type} (op : Nat → Except E V) (dl : Int)
    (fuel a : Nat) (le : Option E) (att : Nat) (v : V) (hsucc : op a = .ok v) :
    withRetryGo op dl (fuel + 1) a le att =
      ({ success := true, attempts := a, result := some v }, [RetryEvent.opCall a]) := by
  conv_lhs => rw [withRetryGo]
  rw [hsucc]

lemma withRetrySyncGo_success {V E : Type} (k : Nat) (err : Nat → E) (v : V) (d : E) :
    ∀ (fuel a : Nat) (le : Option E) (att : Nat), a ≤ k + 1 → k + 1 < a + fuel →
      withRetrySyncGo (failThenSucceedSync k err v) d fuel a le att =
        { success := true, attempts := k + 1, result := some v } := by
  intro fuel
  induction fuel with
  | zero => intro a le att h1 h2; omega
  | succ f ih =>
      intro a le att h1 h2
      by_cases hak : a ≤ k
      · rw [withRetrySyncGo_step _ _ _ _ _ _ (by simp [failThenSucceedSync, hak])]
        exact ih (a + 1) _ _ (by omega) (by omega)
      · have ha : a = k + 1 := by omega
        subst ha
        rw [withRetrySyncGo_hit _ _ _ _ _ _ (by simp [failThenSucceedSync, hak])]
        simp [failThenSucceedSync, hak]

lemma withRetrySyncGo_allfail {V E : Type} (k : Nat) (err : Nat → E) (v : V) (d : E) :
    ∀ (fuel a : Nat) (le : Option E) (att : Nat), 1 ≤ fuel → a + fuel ≤ k + 1 →
      withRetrySyncGo (failThenSucceedSync k err v) d fuel a le att =
        { success := false, attempts := a + fuel - 1, error := some (err (a + fuel - 1)) } := by
  intro fuel
  induction fuel with
  | zero => intro a le att h1 h2; omega
  | succ f ih =>
      intro a le att _ h2
      have hak : a ≤ k := by omega
      rw [withRetrySyncGo_step _ _ _ _ _ _ (by simp [failThenSucceedSync, hak])]
      cases f with
      | zero => simp [withRetrySyncGo, failThenSucceedSync, hak]
      | succ f' =>
          rw [ih (a + 1) _ _ (by omega) (by omega)]
          have e1 : a + 1 + (f' + 1) - 1 = a + (f' + 1 + 1) - 1 := by omega
          rw [e1]

/-- Result of the async loop on the same fail-then-succeed family, success
within the window. -/
lemma withRetryGo_success {V E : Type} (k : Nat) (err : Nat → E) (v : V) (dl : Int) :
    ∀ (fuel a : Nat) (le : Option E) (att : Nat), a ≤ k + 1 → k + 1 < a + fuel →
      (withRetryGo (failThenSucceedAsync k err v) dl fuel a le att).1 =
        { success := true, attempts := k + 1, result := some v } := by
  intro fuel
  induction fuel with
  | zero => intro a le att h1 h2; omega
  | succ f ih =>
      intro a le att h1 h2
      by_cases hak : a ≤ k
      · rw [withRetryGo_step _ _ _ _ _ _ (err a) (by simp [failThenSucceedAsync, hak])]
        exact ih (a + 1) _ _ (by omega) (by omega)
      · have ha : a = k + 1 := by omega
        subst ha
        rw [withRetryGo_hit _ _ _ _ _ _ v (by simp [failThenSucceedAsync, hak])]

lemma withRetryGo_allfail {V E : Type} (k : Nat) (err : Nat → E) (v : V) (dl : Int) :
    ∀ (fuel a : Nat) (le : Option E) (att : Nat), 1 ≤ fuel → a + fuel ≤ k + 1 →
      (withRetryGo (failThenSucceedAsync k err v) dl fuel a le att).1 =
        { success := false, attempts := a + fuel - 1, error := some (err (a + fuel - 1)) } := by
  intro fuel
  induction fuel with
  | zero => intro a le att h1 h2; omega
  | succ f ih =>
      intro a le att _ h2
      have hak : a ≤ k := by omega
      rw [withRetryGo_step _ _ _ _ _ _ (err a) (by simp [failThenSucceedAsync, hak])]
      cases f with
      | zero => simp [withRetryGo, failThenSucceedAsync, hak]
      | succ f' =>
          show (withRetryGo (failThenSucceedAsync k err v) dl (f' + 1) (a + 1)
            (some (err a)) a).1 = _
          rw [ih (a + 1) _ _ (by omega) (by omega)]
          have e1 : a + 1 + (f' + 1) - 1 = a + (f' + 1 + 1) - 1 := by omega
          rw [e1]

/-- C2: for every `maxAttempts ≥ 1` and every operation that fails its first
`k` invocations and then succeeds, both retry variants return success with
`attempts = k + 1` and the produced value when `k < maxAttempts`, and failure
with `attempts = maxAttempts` and `lastError` the error of the final failed
invocation (`err maxAttempts`, not `err 1`) when `k ≥ maxAttempts`. -/
theorem retry_attempts_law {V E : Type} (k m : Nat) (hm : 1 ≤ m) (err : Nat → E)
    (v : V) (d : E) (dOpt : Option Int) :
    withRetrySync (failThenSucceedSync k err v) d (m : Int) =
      (if k < m then { success := true, attempts := k + 1, result := some v }
       else { success := false, attempts := m, error := some (err m) }) ∧
    (withRetry (failThenSucceedAsync k err v)
        { maxRetries := some (m : Int), delay := dOpt }).1 =
      (if k < m then { success := true, attempts := k + 1, result := some v }
       else { success := false, attempts := m, error := some (err m) }) := by
  have hms : ((m : Int)).toNat = m := Int.toNat_natCast m
  have e1 : 1 + m - 1 = m := by omega
  constructor
  · unfold withRetrySync
    rw [hms]
    by_cases hkm : k < m
    · rw [if_pos hkm]
      exact withRetrySyncGo_success k err v d m 1 none 0 (by omega) (by omega)
    · rw [if_neg hkm]
      rw [withRetrySyncGo_allfail k err v d m 1 none 0 (by omega) (by omega), e1]
  · unfold withRetry
    simp only [Option.getD_some]
    rw [hms]
    by_cases hkm : k < m
    · rw [if_pos hkm]
      exact withRetryGo_success k err v (dOpt.getD 1000) m 1 none 0 (by omega) (by omega)
    · rw [if_neg hkm]
      rw [withRetryGo_allfail k err v (dOpt.getD 1000) m 1 none 0 (by omega) (by omega), e1]

theorem retry_attempts_law_witness :
    (withRetrySync (failThenSucceedSync 5 (fun i => i) (42 : Nat)) 0 (3 : Int) =
      (if 5 < 3 then { success := true, attempts := 5 + 1, result := some 42 }
       else { success := false, attempts := 3, error := some 3 }) ∧
    (withRetry (failThenSucceedAsync 5 (fun i => i) (42 : Nat))
        { maxRetries := some (3 : Int), delay := none }).1 =
      (if 5 < 3 then { success := true, attempts := 5 + 1, result := some 42 }
       else { success := false, attempts := 3, error := some 3 })) :=
  retry_attempts_law 5 3 (by norm_num) (fun i => i) 42 0 none

/-- C9: when `maxAttempts ≤ 0` (violating the documented precondition
`maxAttempts ≥ 1`) the loop body never runs: both variants return
`succeeded = false`, `attempts = 0` and an absent `lastError`; the sync
result does not depend on the operation at all and the async run has no
observable events (the operation is never invoked). -/
theorem retry_nonpositive_max {V E : Type} (m : Int) (hm : m ≤ 0)
    (op : Nat → OpResult V E) (opA : Nat → Except E V) (d : E) (dOpt : Option Int) :
    withRetrySync op d m = { success := false, attempts := 0, error := none } ∧
    (∀ op2 : Nat → OpResult V E, withRetrySync op2 d m = withRetrySync op d m) ∧
    withRetry opA { maxRetries := some m, delay := dOpt } =
      ({ success := false, attempts := 0, error := none }, []) := by
  have h0 : m.toNat = 0 := Int.toNat_of_nonpos hm
  refine ⟨?_, ?_, ?_⟩
  · unfold withRetrySync
    rw [h0]
    rfl
  · intro op2
    unfold withRetrySync
    rw [h0]
    rfl
  · unfold withRetry
    simp only [Option.getD_some]
    rw [h0]
    rfl

theorem retry_nonpositive_max_witness :
    withRetrySync (failThenSucceedSync 0 (fun i => i) (7 : Nat)) 9 (-2 : Int) =
      { success := false, attempts := 0, error := none } ∧
    (∀ op2 : Nat → OpResult Nat Nat,
      withRetrySync op2 9 (-2 : Int) =
        withRetrySync (failThenSucceedSync 0 (fun i => i) (7 : Nat)) 9 (-2 : Int)) ∧
    withRetry (failThenSucceedAsync 0 (fun i => i) (7 : Nat))
        { maxRetries := some (-2 : Int), delay := some 5 } =
      ({ success := false, attempts := 0, error := none }, []) :=
  retry_nonpositive_max (-2) (by norm_num)
    (failThenSucceedSync 0 (fun i => i) 7) (failThenSucceedAsync 0 (fun i => i) 7) 9 (some 5)

/-- An async operation that throws on every invocation. -/
def alwaysFailAsync {V E : Type} (err : Nat → E) : Nat → Except E V :=
  fun i => .error (err i)

lemma withRetryGo_allfail_trace {V E : Type} (err : Nat → E) (dl : Int) :
    ∀ (fuel a : Nat) (le : Option E) (att : Nat), 1 ≤ fuel →
      (withRetryGo (V := V) (alwaysFailAsync err) dl fuel a le att).2 =
        ((List.range' a (fuel - 1)).map
          (fun i => RetryEvent.opCall i :: RetryEvent.onRetryCall i (err i) ::
            (if dl > 0 then [RetryEvent.sleep dl] else []))).flatten ++
          [RetryEvent.opCall (a + fuel - 1)] := by
  intro fuel
  induction fuel with
  | zero => intro a le att h1; omega
  | succ f ih =>
      intro a le att _
      rw [withRetryGo_step _ _ _ _ _ _ (err a) rfl]
      cases f with
      | zero => simp [withRetryGo]
      | succ f' =>
          show RetryEvent.opCall a ::
              ((RetryEvent.onRetryCall a (err a) ::
                (if dl > 0 then [RetryEvent.sleep dl] else [])) ++
                (withRetryGo (alwaysFailAsync err) dl (f' + 1) (a + 1)
                  (some (err a)) a).2) = _
          rw [ih (a + 1) _ _ (by omega)]
          have e1 : f' + 1 + 1 - 1 = f' + 1 := by omega
          have e2 : f' + 1 - 1 = f' := by omega
          have e3 : a + 1 + (f' + 1) - 1 = a + (f' + 1 + 1) - 1 := by omega
          rw [e1, e2, e3, List.range'_succ a f' 1]
          simp [List.cons_append, List.append_assoc]

/-- C7 (amended): on a run whose every attempt fails, the event trace is
exactly, for each non-final attempt `i`, the operation call, then one
`onRetry(i, error_i)` observer call, then a `setTimeout` suspension of the
resolved delay when it is positive - followed by the final operation call
with no observer call and no suspension after it. The resolved delay is the
configured `delay` when present and 1000 ms when omitted, so the suspension
is skipped iff the resolved delay is ≤ 0: configuring `delay: 0` skips it,
but omitting `delay` does not. -/
theorem withRetry_observer_and_delay {V E : Type} (m : Nat) (hm : 1 ≤ m)
    (err : Nat → E) (dOpt : Option Int) :
    (withRetry (V := V) (alwaysFailAsync err)
        { maxRetries := some (m : Int), delay := dOpt }).2 =
      ((List.range' 1 (m - 1)).map
        (fun i => RetryEvent.opCall i :: RetryEvent.onRetryCall i (err i) ::
          (if dOpt.getD 1000 > 0 then [RetryEvent.sleep (dOpt.getD 1000)] else []))).flatten ++
        [RetryEvent.opCall m] := by
  unfold withRetry
  simp only [Option.getD_some]
  rw [Int.toNat_natCast]
  rw [withRetryGo_allfail_trace err (dOpt.getD 1000) m 1 none 0 hm]
  have e1 : 1 + m - 1 = m := by omega
  rw [e1]

theorem withRetry_observer_and_delay_witness :
    (withRetry (V := Unit) (alwaysFailAsync (fun i => i))
        { maxRetries := some (3 : Int), delay := some 0 }).2 =
      ((List.range' 1 (3 - 1)).map
        (fun i => RetryEvent.opCall i :: RetryEvent.onRetryCall i i ::
          (if (some (0 : Int)).getD 1000 > 0 then [RetryEvent.sleep ((some (0 : Int)).getD 1000)]
           else []))).flatten ++
        [RetryEvent.opCall 3] :=
  withRetry_observer_and_delay 3 (by norm_num) (fun i => i) (some 0)

/-- C7 (counterexample to the claim as stated): with `delay` omitted, the
`?? 1000` default applies and the run still suspends for 1000 ms between
failed attempts - the suspension is not skipped. -/
theorem withRetry_omitted_delay_still_sleeps :
    (withRetry (V := Unit) (alwaysFailAsync (E := Unit) (fun _ => ()))
        { maxRetries := some (2 : Int), delay := none }).2 =
      [.opCall 1, .onRetryCall 1 (), .sleep 1000, .opCall 2] := by
  decide

end HomeyWenzhi
